import Mathlib

/-!
# Executive-order cache and summary queue: a shallow embedding

This file embeds the queue/cache subsystem of a Cloudflare worker
(`src/types.ts`) in Lean 4 and proves properties of it.

Modeling conventions:

* Timestamps (`Date.now()`) are `Nat` milliseconds; one `now` value is
  passed per invocation.
* Every external network call is an oracle passed as a function argument:
  the raw-text fetch is `String → FetchResult` (from the URL), the hosted
  AI backend (`env.AI.run`) is `String → AIResult`, the external Claude
  HTTP API is `String → ClaudeResult`, and the upstream Federal Register
  listing is a `ListingResult` value.  Prompt construction wraps the
  document text in fixed instruction strings, so the oracle is applied to
  the document text directly.
* A JavaScript `throw` in an `async` function is an `Except.error ()`.
* The key-value store holds structured values (JSON serialization is the
  identity on the model); each `put` call is recorded in an ordered trace
  of `Put` events, and the resulting store state is obtained by replaying
  the trace with `applyPuts`.
* The queue array elements are distinct JS objects (they are freshly built
  by `map` and round-trip through KV as JSON), so the in-place mutation of
  the selected items in `processQueue` is modeled positionally: the
  selection is a list of indices and processing rewrites those positions.
-/

/-- Status of a queue item: `'pending' | 'processing' | 'completed' | 'failed'`. -/
inductive Status where
  | pending
  | processing
  | completed
  | failed
deriving DecidableEq, Repr

/-- Model of `QueueItem` from `types.ts`: one unit of summarization work.
`lastAttempt` is an optional JS number. -/
structure QueueItem where
  documentNumber : String
  rawTextUrl : String
  status : Status
  attempts : Nat
  lastAttempt : Option Nat
deriving DecidableEq, Repr

instance : Inhabited QueueItem :=
  ⟨⟨"", "", Status.pending, 0, none⟩⟩

/-- Model of `President` from `types.ts` (the upstream listing's nested object). -/
structure President where
  identifier : String
  name : String
deriving DecidableEq, Repr

/-- The normalized `ExecutiveOrder` record as actually built by
`fetchExecutiveOrders` (`president` is `result.president.name`, a string). -/
structure ExecutiveOrder where
  raw_text_url : String
  pdf_url : String
  document_number : String
  publication_date : String
  signing_date : String
  title : String
  executive_order_number : String
  president : String
  type : String
deriving DecidableEq, Repr

/-- Model of `CachedData` from `types.ts`: the snapshot stored under the `orders` key. -/
structure CachedData where
  lastUpdated : Nat
  orders : List ExecutiveOrder
deriving DecidableEq, Repr

/-- One raw result object of the upstream listing response; only the fields
the normalization reads are modeled. -/
structure RawOrder where
  raw_text_url : String
  pdf_url : String
  document_number : String
  publication_date : String
  signing_date : String
  title : String
  executive_order_number : String
  president : President
  type : String
deriving DecidableEq, Repr

/-- Outcome of `fetch(BASE_URL?...)` for the listing: network failure, or a
response with its `ok` flag and parsed `results` array. -/
inductive ListingResult where
  | err
  | resp (ok : Bool) (results : List RawOrder)
deriving DecidableEq, Repr

/-- Outcome of `fetch(item.rawTextUrl)` (and the subsequent `.text()`):
network failure, or a response with its `ok` flag and body text. -/
inductive FetchResult where
  | err
  | ok (ok_ : Bool) (body : String)
deriving DecidableEq, Repr

/-- Outcome of `env.AI.run`: a thrown error, or a response object whose
optional `response` field is `none` when absent and `some ""` when empty
(both falsy in JS). -/
inductive AIResult where
  | err
  | ok (response : Option String)
deriving DecidableEq, Repr

/-- Outcome of the Claude HTTP call: network failure, or a response with
its `ok` flag and the `data.content[i].text` strings. -/
inductive ClaudeResult where
  | err
  | resp (ok : Bool) (content : List String)
deriving DecidableEq, Repr

/-- A `put` call on the KV namespace, in program order.  `Put.queue` writes
the `summary_queue` key, `Put.summary` a `summary:<doc>` key, `Put.orders`
the `orders` key. -/
inductive Put where
  | queue (q : List QueueItem)
  | summary (key : String) (text : String)
  | orders (data : CachedData)
deriving DecidableEq, Repr

/-- The KV keys the queue/cache subsystem reads back: the snapshot and the
queue.  `summary:*` keys are written but never read by these operations,
so replay ignores them. -/
structure Store where
  orders : Option CachedData
  queue : Option (List QueueItem)
deriving DecidableEq, Repr

/-- Replay a trace of `put` calls onto a store. -/
def applyPuts (puts : List Put) (s : Store) : Store :=
  puts.foldl
    (fun s p =>
      match p with
      | Put.queue q => { s with queue := some q }
      | Put.orders d => { s with orders := some d }
      | Put.summary _ _ => s)
    s

/-- Constant `MAX_CONCURRENT_REQUESTS = 5`. -/
def MAX_CONCURRENT_REQUESTS : Nat := 5

/-- Constant `RETRY_DELAY_MS = 60000` (one minute). -/
def RETRY_DELAY_MS : Nat := 60000

/-- Constant `MAX_RETRIES = 3`. -/
def MAX_RETRIES : Nat := 3

/-- Flag `AI_USE_CF = true`: the hosted backend is selected statically. -/
def AI_USE_CF : Bool := true

/-- The eligibility filter of `processQueue`:
`item.status === 'pending' || (item.status === 'failed' && item.attempts <
MAX_RETRIES && (!item.lastAttempt || Date.now() - item.lastAttempt >=
RETRY_DELAY_MS))`.  Note `!item.lastAttempt` is a JS falsiness test, true
both when the field is absent and when it equals `0`. -/
def isEligible (now : Nat) (item : QueueItem) : Bool :=
  item.status = Status.pending ||
    (item.status = Status.failed && item.attempts < MAX_RETRIES &&
      (match item.lastAttempt with
       | none => true
       | some t => t = 0 || decide (RETRY_DELAY_MS ≤ now - t)))

/-- Model of `summarizeEOCF`: run the hosted model; if the response object has a
truthy `response` field return it, otherwise return the string
`"failed"`. -/
def summarizeEOCF (ai : String → AIResult) (text : String) : Except Unit String :=
  match ai text with
  | AIResult.err => Except.error ()
  | AIResult.ok none => Except.ok "failed"
  | AIResult.ok (some r) => if r = "" then Except.ok "failed" else Except.ok r

/-- Model of `summarizeEOClaude`: POST to the Claude API; a network error, a
non-`ok` response, or a response without `content[0].text` all end in the
`catch` block, which rethrows (`'Failed to generate summary'`). -/
def summarizeEOClaude (api : String → ClaudeResult) (text : String) : Except Unit String :=
  match api text with
  | ClaudeResult.err => Except.error ()
  | ClaudeResult.resp false _ => Except.error ()
  | ClaudeResult.resp true [] => Except.error ()
  | ClaudeResult.resp true (t :: _) => Except.ok t

/-- Model of `summarizeEO`: static dispatch on `AI_USE_CF`. -/
def summarizeEO (ai : String → AIResult) (api : String → ClaudeResult)
    (text : String) : Except Unit String :=
  if AI_USE_CF then summarizeEOCF ai text else summarizeEOClaude api text

/-- Model of `fetchExecutiveOrders`: fetch the listing; throw on network error or
non-`ok` status; otherwise normalize each result
(`president: result.president.name`). -/
def fetchExecutiveOrders (listing : ListingResult) : Except Unit (List ExecutiveOrder) :=
  match listing with
  | ListingResult.err => Except.error ()
  | ListingResult.resp false _ => Except.error ()
  | ListingResult.resp true results =>
      Except.ok (results.map fun r =>
        { raw_text_url := r.raw_text_url
          pdf_url := r.pdf_url
          document_number := r.document_number
          publication_date := r.publication_date
          signing_date := r.signing_date
          title := r.title
          executive_order_number := r.executive_order_number
          president := r.president.name
          type := r.type })

/-- The new queue items built inside `updateCache`: orders whose
`document_number` is not already in the queue, mapped to fresh `pending`
items with `attempts = 0`. -/
def newQueueItemsFor (orders : List ExecutiveOrder) (existingQueue : List QueueItem) :
    List QueueItem :=
  let existingDocs := existingQueue.map (fun item => item.documentNumber)
  (orders.filter fun o => !(existingDocs.contains o.document_number)).map fun o =>
    { documentNumber := o.document_number
      rawTextUrl := o.raw_text_url
      status := Status.pending
      attempts := 0
      lastAttempt := none }

/-- The queue-append step of `updateCache` (the spec's `enqueueNew`):
append a `pending` item for each order not already tracked. -/
def enqueueNew (orders : List ExecutiveOrder) (existingQueue : List QueueItem) :
    List QueueItem :=
  existingQueue ++ newQueueItemsFor orders existingQueue

/-- The first mutation of a selected item in the `processQueue` loop:
`item.status = 'processing'; item.attempts++; item.lastAttempt = Date.now()`. -/
def markProcessing (now : Nat) (item : QueueItem) : QueueItem :=
  { item with status := Status.processing, attempts := item.attempts + 1,
              lastAttempt := some now }

/-- The `try`/`catch` body of the `processQueue` loop for one item: fetch
the raw text (the response's `ok` flag is never inspected), summarize the
body, and on success put the summary; any thrown error is caught and the
item is marked `failed`.  Returns the item's final status and the summary
`put` calls made. -/
def tryProcessItem (ai : String → AIResult) (api : String → ClaudeResult)
    (fetchRaw : String → FetchResult) (item : QueueItem) : Status × List Put :=
  match fetchRaw item.rawTextUrl with
  | FetchResult.err => (Status.failed, [])
  | FetchResult.ok _ body =>
      match summarizeEO ai api body with
      | Except.error _ => (Status.failed, [])
      | Except.ok s =>
          (Status.completed, [Put.summary ("summary:" ++ item.documentNumber) s])

/-- The positions of the eligible items, in queue order (the model of
`queueData.filter(...)`, which collects references into `queueData`). -/
def eligibleIdx (now : Nat) (q : List QueueItem) : List Nat :=
  (List.range q.length).filter fun i => isEligible now (q.getD i default)

/-- Model of `eligibleItems.slice(0, MAX_CONCURRENT_REQUESTS)`, as positions. -/
def selectedIdx (now : Nat) (q : List QueueItem) : List Nat :=
  (eligibleIdx now q).take MAX_CONCURRENT_REQUESTS

/-- The `for` loop of `processQueue` over the selected positions: mark the
item `processing` and persist the whole queue, run the `try`/`catch` body,
set the final status, persist the whole queue again, and continue with the
next selected item.  Returns the final queue and the trace of `put`
calls. -/
def processLoop (now : Nat) (ai : String → AIResult) (api : String → ClaudeResult)
    (fetchRaw : String → FetchResult) :
    List Nat → List QueueItem → List QueueItem × List Put
  | [], q => (q, [])
  | i :: rest, q =>
      let it1 := markProcessing now (q.getD i default)
      let q1 := q.set i it1
      let res := tryProcessItem ai api fetchRaw it1
      let q2 := q1.set i { it1 with status := res.1 }
      let cont := processLoop now ai api fetchRaw rest q2
      (cont.1, Put.queue q1 :: (res.2 ++ Put.queue q2 :: cont.2))

/-- Model of `processQueue`: read the queue (`|| []` when absent), return at once if
it is empty, otherwise filter the eligible items, slice off the first
`MAX_CONCURRENT_REQUESTS`, and run the loop.  Returns the final in-memory
queue and the trace of `put` calls. -/
def processQueue (now : Nat) (ai : String → AIResult) (api : String → ClaudeResult)
    (fetchRaw : String → FetchResult) (queueData : Option (List QueueItem)) :
    List QueueItem × List Put :=
  let q := queueData.getD []
  if q.length = 0 then (q, [])
  else processLoop now ai api fetchRaw (selectedIdx now q) q

/-- Model of `updateCache`: fetch and normalize the listing (errors propagate — the
`catch` logs and rethrows), put the full snapshot under `orders` in a
single `put`, and when `summary` is requested append the new queue items,
writing the queue only when there is at least one.  Returns the trace of
`put` calls. -/
def updateCache (now : Nat) (listing : ListingResult) (summary : Bool)
    (store : Store) : Except Unit (List Put) :=
  match fetchExecutiveOrders listing with
  | Except.error e => Except.error e
  | Except.ok orders =>
      let cacheData : CachedData := { lastUpdated := now, orders := orders }
      if summary then
        let existingQueue := store.queue.getD []
        let newQueueItems := newQueueItemsFor orders existingQueue
        if 0 < newQueueItems.length then
          Except.ok [Put.orders cacheData, Put.queue (enqueueNew orders existingQueue)]
        else
          Except.ok [Put.orders cacheData]
      else
        Except.ok [Put.orders cacheData]

/-- One trigger of the system: a `processQueue` invocation or an
`updateCache` invocation (each with its own oracles and clock). -/
inductive Step where
  | proc (now : Nat) (ai : String → AIResult) (api : String → ClaudeResult)
      (fetchRaw : String → FetchResult)
  | refresh (now : Nat) (listing : ListingResult) (summary : Bool)

/-- Apply one trigger to the store: replay the `put` trace of the
invocation; a failed refresh propagates to the scheduler, which logs and
moves on, leaving the store untouched. -/
def applyStep (s : Store) : Step → Store
  | Step.proc now ai api fetchRaw =>
      applyPuts (processQueue now ai api fetchRaw s.queue).2 s
  | Step.refresh now listing summary =>
      match updateCache now listing summary s with
      | Except.error _ => s
      | Except.ok puts => applyPuts puts s

/-! ## Helper lemmas -/

theorem applyPuts_nil (s : Store) : applyPuts [] s = s := rfl

theorem applyPuts_cons (p : Put) (l : List Put) (s : Store) :
    applyPuts (p :: l) s =
      applyPuts l
        (match p with
         | Put.queue q => { s with queue := some q }
         | Put.orders d => { s with orders := some d }
         | Put.summary _ _ => s) := rfl

theorem applyPuts_append (l1 l2 : List Put) (s : Store) :
    applyPuts (l1 ++ l2) s = applyPuts l2 (applyPuts l1 s) :=
  List.foldl_append _ _ _ _

theorem mem_eligibleIdx (now : Nat) (q : List QueueItem) (i : Nat) :
    i ∈ eligibleIdx now q ↔ i < q.length ∧ isEligible now (q.getD i default) = true := by
  simp [eligibleIdx, List.mem_filter, List.mem_range]

theorem eligibleIdx_nodup (now : Nat) (q : List QueueItem) :
    (eligibleIdx now q).Nodup :=
  (List.nodup_range _).filter _

theorem selectedIdx_nodup (now : Nat) (q : List QueueItem) :
    (selectedIdx now q).Nodup :=
  ((List.take_sublist _ _).nodup (eligibleIdx_nodup now q))

theorem mem_selectedIdx (now : Nat) (q : List QueueItem) (i : Nat)
    (h : i ∈ selectedIdx now q) :
    i < q.length ∧ isEligible now (q.getD i default) = true :=
  (mem_eligibleIdx now q i).1 (List.mem_of_mem_take h)

theorem selectedIdx_length_le (now : Nat) (q : List QueueItem) :
    (selectedIdx now q).length ≤ MAX_CONCURRENT_REQUESTS := by
  simp [selectedIdx, List.length_take]

theorem processLoop_length (now : Nat) (ai : String → AIResult)
    (api : String → ClaudeResult) (fetchRaw : String → FetchResult)
    (sel : List Nat) (q : List QueueItem) :
    (processLoop now ai api fetchRaw sel q).1.length = q.length := by
  induction sel generalizing q with
  | nil => rfl
  | cons i rest ih =>
      simp only [processLoop]
      rw [ih]
      simp [List.length_set]

theorem processLoop_get?_not_mem (now : Nat) (ai : String → AIResult)
    (api : String → ClaudeResult) (fetchRaw : String → FetchResult)
    (sel : List Nat) (q : List QueueItem) (j : Nat) (hj : j ∉ sel) :
    (processLoop now ai api fetchRaw sel q).1.get? j = q.get? j := by
  induction sel generalizing q with
  | nil => rfl
  | cons i rest ih =>
      have hji : j ≠ i := fun h => hj (h ▸ List.mem_cons_self i rest)
      have hjr : j ∉ rest := fun h => hj (List.mem_cons_of_mem i h)
      simp only [processLoop]
      rw [ih _ hjr, List.get?_eq_getElem?, List.get?_eq_getElem?,
        List.getElem?_set_ne (Ne.symm hji), List.getElem?_set_ne (Ne.symm hji)]

theorem processLoop_get?_mem (now : Nat) (ai : String → AIResult)
    (api : String → ClaudeResult) (fetchRaw : String → FetchResult)
    (sel : List Nat) (q : List QueueItem) (hnd : sel.Nodup)
    (hlt : ∀ i ∈ sel, i < q.length) (j : Nat) (hj : j ∈ sel) :
    (processLoop now ai api fetchRaw sel q).1.get? j =
      some { markProcessing now (q.getD j default) with
             status :=
               (tryProcessItem ai api fetchRaw
                 (markProcessing now (q.getD j default))).1 } := by
  induction sel generalizing q with
  | nil => cases hj
  | cons i rest ih =>
      rcases List.nodup_cons.mp hnd with ⟨hiR, hndR⟩
      simp only [processLoop]
      rcases List.mem_cons.mp hj with hji | hjr
      · subst hji
        have hjlen : j < q.length := hlt j hj
        rw [processLoop_get?_not_mem _ _ _ _ _ _ _ hiR, List.set_set,
          List.get?_eq_getElem?, List.getElem?_set_eq_of_lt]
        simpa using hjlen
      · have hji : j ≠ i := fun h => hiR (h ▸ hjr)
        have hq2 : ∀ it1 it2,
            (((q.set i it1).set i it2).getD j default) = q.getD j default := by
          intro it1 it2
          rw [List.set_set, List.getD_eq_getElem?_getD,
            List.getElem?_set_ne (Ne.symm hji), ← List.getD_eq_getElem?_getD]
        rw [ih _ hndR _ hjr]
        · rw [hq2]
        · intro k hk
          simpa [List.length_set] using hlt k (List.mem_cons_of_mem i hk)

theorem tryProcessItem_puts (ai : String → AIResult) (api : String → ClaudeResult)
    (fetchRaw : String → FetchResult) (item : QueueItem) :
    (tryProcessItem ai api fetchRaw item).2 = [] ∨
      ∃ k v, (tryProcessItem ai api fetchRaw item).2 = [Put.summary k v] := by
  cases hf : fetchRaw item.rawTextUrl with
  | err => simp [tryProcessItem, hf]
  | ok f body =>
      cases hs : summarizeEO ai api body with
      | error e => simp [tryProcessItem, hf, hs]
      | ok s => simp [tryProcessItem, hf, hs]

theorem applyPuts_summary (k v : String) (l : List Put) (s : Store) :
    applyPuts (Put.summary k v :: l) s = applyPuts l s := rfl

theorem processLoop_replay (now : Nat) (ai : String → AIResult)
    (api : String → ClaudeResult) (fetchRaw : String → FetchResult)
    (sel : List Nat) (q : List QueueItem) (s : Store) (hs : s.queue = some q) :
    applyPuts (processLoop now ai api fetchRaw sel q).2 s =
      { s with queue := some (processLoop now ai api fetchRaw sel q).1 } := by
  induction sel generalizing q s with
  | nil =>
      simp only [processLoop, applyPuts_nil]
      cases s
      simp_all
  | cons i rest ih =>
      simp only [processLoop]
      rw [applyPuts_cons]
      rcases tryProcessItem_puts ai api fetchRaw
          (markProcessing now (q.getD i default)) with hput | ⟨k, v, hput⟩ <;>
        rw [hput] <;>
        simp only [List.nil_append, List.cons_append, applyPuts_summary,
          applyPuts_cons] <;>
        rw [ih _ _ rfl]

theorem processQueue_replay (now : Nat) (ai : String → AIResult)
    (api : String → ClaudeResult) (fetchRaw : String → FetchResult)
    (q : List QueueItem) (s : Store) (hs : s.queue = some q) :
    applyPuts (processQueue now ai api fetchRaw (some q)).2 s =
      { s with queue := some (processQueue now ai api fetchRaw (some q)).1 } := by
  by_cases hq : q.length = 0
  · have hq' : q = [] := List.length_eq_zero.mp hq
    subst hq'
    have hpq : processQueue now ai api fetchRaw (some []) = ([], []) := rfl
    rw [hpq, applyPuts_nil]
    cases s with
    | mk o qq => simp only at hs; simp [hs]
  · unfold processQueue
    simp only [Option.getD_some, if_neg hq]
    exact processLoop_replay now ai api fetchRaw _ q s hs

theorem stuck_not_eligible (now : Nat) (item : QueueItem)
    (hst : item.status = Status.failed) (hat : MAX_RETRIES ≤ item.attempts) :
    isEligible now item = false := by
  simp [isEligible, hst, Nat.not_lt.mpr hat]

theorem newQueueItemsFor_docs (orders : List ExecutiveOrder) (q : List QueueItem) :
    (newQueueItemsFor orders q).map (fun it => it.documentNumber) =
      (orders.filter fun o =>
        !((q.map fun it => it.documentNumber).contains o.document_number)).map
        (fun o => o.document_number) := by
  simp [newQueueItemsFor, List.map_map, Function.comp]

theorem enqueueNew_nodup (orders : List ExecutiveOrder) (q : List QueueItem)
    (hq : ((q.map fun it => it.documentNumber)).Nodup)
    (ho : ((orders.map fun o => o.document_number)).Nodup) :
    (((enqueueNew orders q).map fun it => it.documentNumber)).Nodup := by
  unfold enqueueNew
  rw [List.map_append, List.nodup_append]
  refine ⟨hq, ?_, ?_⟩
  · rw [newQueueItemsFor_docs]
    exact (((List.filter_sublist orders).map _).nodup ho)
  · intro x hx hx2
    rw [newQueueItemsFor_docs] at hx2
    rcases List.mem_map.mp hx2 with ⟨o, hmem, hdoc⟩
    rcases List.mem_filter.mp hmem with ⟨_, hnc⟩
    have hno : o.document_number ∉ q.map fun it => it.documentNumber := by
      simpa [List.elem_iff] using hnc
    exact hno (hdoc ▸ hx)

theorem applyStep_preserves_stuck (s : Store) (step : Step) (q : List QueueItem)
    (i : Nat) (item : QueueItem) (hq : s.queue = some q) (hget : q.get? i = some item)
    (hst : item.status = Status.failed) (hat : MAX_RETRIES ≤ item.attempts) :
    ∃ q', (applyStep s step).queue = some q' ∧ q'.get? i = some item := by
  have hi : i < q.length := by
    by_contra hcon
    rw [List.get?_eq_getElem?, List.getElem?_eq_none (Nat.le_of_not_lt hcon)] at hget
    cases hget
  cases step with
  | proc now ai api fetchRaw =>
      have hne : i ∉ selectedIdx now q := by
        intro hmem
        have h2 := (mem_selectedIdx now q i hmem).2
        have hgd : q.getD i default = item := by
          rw [List.getD_eq_getElem?_getD, ← List.get?_eq_getElem?, hget]; rfl
        rw [hgd, stuck_not_eligible now item hst hat] at h2
        cases h2
      refine ⟨(processQueue now ai api fetchRaw (some q)).1, ?_, ?_⟩
      · show (applyPuts (processQueue now ai api fetchRaw s.queue).2 s).queue = _
        rw [hq, processQueue_replay now ai api fetchRaw q s hq]
      · have hlen : ¬ q.length = 0 := by omega
        unfold processQueue
        simp only [Option.getD_some, if_neg hlen]
        rw [processLoop_get?_not_mem _ _ _ _ _ _ _ hne, hget]
  | refresh now listing summary =>
      cases hfo : fetchExecutiveOrders listing with
      | error e =>
          refine ⟨q, ?_, hget⟩
          simp [applyStep, updateCache, hfo, hq]
      | ok orders =>
          by_cases hsum : summary = true
          · by_cases hnew : 0 < (newQueueItemsFor orders q).length
            · refine ⟨enqueueNew orders q, ?_, ?_⟩
              · simp [applyStep, updateCache, hfo, hq, hsum, hnew, applyPuts]
              · unfold enqueueNew
                rw [List.get?_eq_getElem?, List.getElem?_append, if_pos hi,
                  ← List.get?_eq_getElem?, hget]
            · refine ⟨q, ?_, hget⟩
              simp [applyStep, updateCache, hfo, hq, hsum, hnew, applyPuts]
          · refine ⟨q, ?_, hget⟩
            simp [applyStep, updateCache, hfo, hq, hsum, applyPuts]

/-! ## Claim theorems -/

/-- Claim C9 (code bug, evaluated at the failing input): when the raw-text
fetch returns a non-success HTTP status (`ok = false`) with an error body,
`processQueue` does not mark the item `failed`; it summarizes the error
body, marks the item `completed`, and writes a SummaryRecord — the
response's `ok` flag is never inspected. -/
theorem processQueue_ignores_http_status :
    processQueue 100 (fun _ => AIResult.ok (some "S")) (fun _ => ClaudeResult.err)
        (fun _ => FetchResult.ok false "Not Found")
        (some [⟨"A", "u", Status.pending, 0, none⟩]) =
      ([⟨"A", "u", Status.completed, 1, some 100⟩],
       [Put.queue [⟨"A", "u", Status.processing, 1, some 100⟩],
        Put.summary "summary:A" "S",
        Put.queue [⟨"A", "u", Status.completed, 1, some 100⟩]]) := by
  rfl

/-- Claim C6 (counterexample): the item `{status: failed, attempts: 1,
lastAttempt: 0}` at `now = RETRY_DELAY_MS - 1` refutes the claim "eligible
iff lastAttempt is unset or now - lastAttempt ≥ RETRY_DELAY": its
`lastAttempt` is set and the delay has not elapsed, yet the JS falsiness
test `!item.lastAttempt` makes it eligible. -/
theorem retry_gate_claim_counterexample :
    ¬ (isEligible 59999 ⟨"A", "u", Status.failed, 1, some 0⟩ = true ↔
        ((⟨"A", "u", Status.failed, 1, some 0⟩ : QueueItem).lastAttempt = none ∨
          RETRY_DELAY_MS ≤ 59999 -
            ((⟨"A", "u", Status.failed, 1, some 0⟩ : QueueItem).lastAttempt.getD 0))) := by
  decide

/-- Claim C6 (amended): a `failed` item with `attempts < MAX_RETRIES` is
eligible iff its `lastAttempt` is unset **or equal to 0** (JS falsiness)
or `now - lastAttempt ≥ RETRY_DELAY_MS`; and for any set `lastAttempt =
T > 0`, a `processQueue` call at `now = T + RETRY_DELAY_MS - 1` leaves the
single-item queue unchanged and performs no writes. -/
theorem retry_gate_amended :
    (∀ (now : Nat) (item : QueueItem), item.status = Status.failed →
      item.attempts < MAX_RETRIES →
      (isEligible now item = true ↔
        (item.lastAttempt = none ∨ item.lastAttempt = some 0 ∨
          RETRY_DELAY_MS ≤ now - item.lastAttempt.getD 0))) ∧
    (∀ (T : Nat) (doc url : String) (ai : String → AIResult)
        (api : String → ClaudeResult) (fetchRaw : String → FetchResult), 0 < T →
      processQueue (T + RETRY_DELAY_MS - 1) ai api fetchRaw
          (some [⟨doc, url, Status.failed, 1, some T⟩]) =
        ([⟨doc, url, Status.failed, 1, some T⟩], [])) := by
  constructor
  · intro now item hst hat
    cases hla : item.lastAttempt with
    | none => simp [isEligible, hst, hat, hla]
    | some t => simp [isEligible, hst, hat, hla]
  · intro T doc url ai api fetchRaw hT
    have h59 : T + RETRY_DELAY_MS - 1 - T = RETRY_DELAY_MS - 1 := by omega
    have he : isEligible (T + RETRY_DELAY_MS - 1)
        ⟨doc, url, Status.failed, 1, some T⟩ = false := by
      simp [isEligible, h59, RETRY_DELAY_MS, Nat.pos_iff_ne_zero.mp hT]
    have hsel : selectedIdx (T + RETRY_DELAY_MS - 1)
        [⟨doc, url, Status.failed, 1, some T⟩] = [] := by
      simp [selectedIdx, eligibleIdx, he]
    unfold processQueue
    rw [Option.getD_some]
    rw [if_neg (by simp), hsel]
    rfl

/-- Claim C8 (counterexample): with an AI response that carries no
`response` field, the hosted backend `summarizeEOCF` returns the sentinel
string `"failed"` as a success value instead of failing — while the oracle
never produced any text, let alone `"failed"`. -/
theorem summarizeEOCF_sentinel :
    summarizeEOCF (fun _ => AIResult.ok none) "doc" = Except.ok "failed" ∧
    (fun _ => AIResult.ok none) "doc" ≠ AIResult.ok (some "failed") := by
  constructor
  · rfl
  · decide

/-- Claim C8 (amended): the Claude backend returns the generated text
(`content[0]`) or fails with a GenerationError; the hosted backend returns
the generated text when the `response` field is present and non-empty,
fails only when `AI.run` throws, and returns the sentinel `"failed"` when
the field is absent or empty; neither backend retries internally (the
result depends only on the single oracle call on the input text). -/
theorem summarize_backends_amended :
    (∀ (api : String → ClaudeResult) (text : String),
      summarizeEOClaude api text = Except.error () ∨
        ∃ t rest, api text = ClaudeResult.resp true (t :: rest) ∧
          summarizeEOClaude api text = Except.ok t) ∧
    (∀ (ai : String → AIResult) (text : String),
      (ai text = AIResult.err → summarizeEOCF ai text = Except.error ()) ∧
      (∀ r, ai text = AIResult.ok (some r) → r ≠ "" →
        summarizeEOCF ai text = Except.ok r) ∧
      ((ai text = AIResult.ok none ∨ ai text = AIResult.ok (some "")) →
        summarizeEOCF ai text = Except.ok "failed")) ∧
    (∀ (o1 o2 : String → AIResult) (text : String), o1 text = o2 text →
      summarizeEOCF o1 text = summarizeEOCF o2 text) ∧
    (∀ (o1 o2 : String → ClaudeResult) (text : String), o1 text = o2 text →
      summarizeEOClaude o1 text = summarizeEOClaude o2 text) := by
  refine ⟨?_, ?_, ?_, ?_⟩
  · intro api text
    cases hr : api text with
    | err => left; simp [summarizeEOClaude, hr]
    | resp ok content =>
        cases ok with
        | false => left; simp [summarizeEOClaude, hr]
        | true =>
            cases content with
            | nil => left; simp [summarizeEOClaude, hr]
            | cons t rest => right; exact ⟨t, rest, rfl, by simp [summarizeEOClaude, hr]⟩
  · intro ai text
    refine ⟨?_, ?_, ?_⟩
    · intro hr; simp [summarizeEOCF, hr]
    · intro r hr hne; simp [summarizeEOCF, hr, hne]
    · rintro (hr | hr) <;> simp [summarizeEOCF, hr]
  · intro o1 o2 text h; simp [summarizeEOCF, h]
  · intro o1 o2 text h; simp [summarizeEOClaude, h]

/-- Claim C3: a queue holding exactly one item `{doc, pending, attempts 0}`
processed with a fetch that returns a body and a generator that returns a
summary ends with that item `{status: completed, attempts: 1}` and a
SummaryRecord put under `summary:<doc>`. -/
theorem processBatch_success_single (doc url : String) (now : Nat)
    (ai : String → AIResult) (api : String → ClaudeResult)
    (fetchRaw : String → FetchResult) (okFlag : Bool) (body s : String)
    (hf : fetchRaw url = FetchResult.ok okFlag body)
    (hs : summarizeEO ai api body = Except.ok s) :
    processQueue now ai api fetchRaw (some [⟨doc, url, Status.pending, 0, none⟩]) =
      ([⟨doc, url, Status.completed, 1, some now⟩],
       [Put.queue [⟨doc, url, Status.processing, 1, some now⟩],
        Put.summary ("summary:" ++ doc) s,
        Put.queue [⟨doc, url, Status.completed, 1, some now⟩]]) := by
  have hsel : selectedIdx now [⟨doc, url, Status.pending, 0, none⟩] = [0] := rfl
  unfold processQueue
  rw [Option.getD_some, if_neg (by simp), hsel]
  simp [processLoop, markProcessing, tryProcessItem, hf, hs]

/-- Witness for C3 at a concrete input. -/
theorem processBatch_success_single_witness :
    processQueue 100 (fun _ => AIResult.ok (some "S")) (fun _ => ClaudeResult.err)
        (fun _ => FetchResult.ok true "body")
        (some [⟨"A", "u", Status.pending, 0, none⟩]) =
      ([⟨"A", "u", Status.completed, 1, some 100⟩],
       [Put.queue [⟨"A", "u", Status.processing, 1, some 100⟩],
        Put.summary ("summary:" ++ "A") "S",
        Put.queue [⟨"A", "u", Status.completed, 1, some 100⟩]]) :=
  processBatch_success_single "A" "u" 100 _ _ _ true "body" "S" rfl rfl

/-- Claim C4: a fetch or generation failure makes `tryProcessItem` return
`failed` with no summary put; the single-item scenario with a throwing
generator ends `{failed, attempts 1, lastAttempt T}` with no SummaryRecord
in the trace; and a failure on the first item of a batch does not abort
the rest: the second item is still processed and completes. -/
theorem processBatch_failure_isolated :
    (∀ (ai : String → AIResult) (api : String → ClaudeResult)
        (fetchRaw : String → FetchResult) (item : QueueItem),
      (fetchRaw item.rawTextUrl = FetchResult.err ∨
        (∃ okFlag body, fetchRaw item.rawTextUrl = FetchResult.ok okFlag body ∧
          summarizeEO ai api body = Except.error ())) →
      tryProcessItem ai api fetchRaw item = (Status.failed, [])) ∧
    (processQueue 1000 (fun _ => AIResult.err) (fun _ => ClaudeResult.err)
        (fun _ => FetchResult.ok true "text")
        (some [⟨"A", "u", Status.pending, 0, none⟩]) =
      ([⟨"A", "u", Status.failed, 1, some 1000⟩],
       [Put.queue [⟨"A", "u", Status.processing, 1, some 1000⟩],
        Put.queue [⟨"A", "u", Status.failed, 1, some 1000⟩]])) ∧
    (processQueue 1000 (fun t => if t = "tA" then AIResult.err else AIResult.ok (some "SB"))
        (fun _ => ClaudeResult.err)
        (fun u => if u = "uA" then FetchResult.ok true "tA" else FetchResult.ok true "tB")
        (some [⟨"A", "uA", Status.pending, 0, none⟩, ⟨"B", "uB", Status.pending, 0, none⟩]) =
      ([⟨"A", "uA", Status.failed, 1, some 1000⟩,
        ⟨"B", "uB", Status.completed, 1, some 1000⟩],
       [Put.queue [⟨"A", "uA", Status.processing, 1, some 1000⟩,
          ⟨"B", "uB", Status.pending, 0, none⟩],
        Put.queue [⟨"A", "uA", Status.failed, 1, some 1000⟩,
          ⟨"B", "uB", Status.pending, 0, none⟩],
        Put.queue [⟨"A", "uA", Status.failed, 1, some 1000⟩,
          ⟨"B", "uB", Status.processing, 1, some 1000⟩],
        Put.summary "summary:B" "SB",
        Put.queue [⟨"A", "uA", Status.failed, 1, some 1000⟩,
          ⟨"B", "uB", Status.completed, 1, some 1000⟩]])) := by
  refine ⟨?_, by rfl, by rfl⟩
  intro ai api fetchRaw item h
  rcases h with hferr | ⟨okFlag, body, hof, hserr⟩
  · simp [tryProcessItem, hferr]
  · simp [tryProcessItem, hof, hserr]

/-- Witness for C4 at a concrete input. -/
theorem processBatch_failure_isolated_witness :
    tryProcessItem (fun _ => AIResult.err) (fun _ => ClaudeResult.err)
        (fun _ => FetchResult.err) ⟨"A", "u", Status.processing, 1, some 7⟩ =
      (Status.failed, []) :=
  processBatch_failure_isolated.1 _ _ _ _ (Or.inl rfl)

/-- Witness for C6 (amended) at a concrete input. -/
theorem retry_gate_amended_witness :
    processQueue (50 + RETRY_DELAY_MS - 1) (fun _ => AIResult.err)
        (fun _ => ClaudeResult.err) (fun _ => FetchResult.err)
        (some [⟨"A", "u", Status.failed, 1, some 50⟩]) =
      ([⟨"A", "u", Status.failed, 1, some 50⟩], []) :=
  retry_gate_amended.2 50 "A" "u" _ _ _ (by decide)

/-- Witness for C8 (amended) at a concrete input. -/
theorem summarize_backends_amended_witness :
    summarizeEOCF (fun _ => AIResult.ok (some "S")) "doc" = Except.ok "S" :=
  (summarize_backends_amended.2.1 (fun _ => AIResult.ok (some "S")) "doc").2.1
    "S" rfl (by decide)

/-- Claim C2: a `processQueue` invocation selects at most
`MAX_CONCURRENT_REQUESTS` items, namely the first
`min(MAX_CONCURRENT_REQUESTS, #eligible)` eligible positions in queue
order; positions outside the selection are untouched; and with 7 pending
items exactly the first 5 leave `pending` while the last 2 stay
`pending`. -/
theorem processBatch_concurrency_bound :
    (∀ (now : Nat) (ai : String → AIResult) (api : String → ClaudeResult)
        (fetchRaw : String → FetchResult) (q : List QueueItem),
      (selectedIdx now q).length ≤ MAX_CONCURRENT_REQUESTS ∧
      (selectedIdx now q).length =
        min MAX_CONCURRENT_REQUESTS (eligibleIdx now q).length ∧
      (∀ k : Nat, (selectedIdx now q).get? k =
        if k < MAX_CONCURRENT_REQUESTS then (eligibleIdx now q).get? k else none) ∧
      (∀ i ∈ selectedIdx now q,
        i < q.length ∧ isEligible now (q.getD i default) = true) ∧
      (∀ j, j ∉ selectedIdx now q →
        (processQueue now ai api fetchRaw (some q)).1.get? j = q.get? j)) ∧
    (processQueue 100 (fun _ => AIResult.ok (some "S")) (fun _ => ClaudeResult.err)
        (fun _ => FetchResult.ok true "body")
        (some [⟨"D0", "u", Status.pending, 0, none⟩,
               ⟨"D1", "u", Status.pending, 0, none⟩,
               ⟨"D2", "u", Status.pending, 0, none⟩,
               ⟨"D3", "u", Status.pending, 0, none⟩,
               ⟨"D4", "u", Status.pending, 0, none⟩,
               ⟨"D5", "u", Status.pending, 0, none⟩,
               ⟨"D6", "u", Status.pending, 0, none⟩])).1 =
      [⟨"D0", "u", Status.completed, 1, some 100⟩,
       ⟨"D1", "u", Status.completed, 1, some 100⟩,
       ⟨"D2", "u", Status.completed, 1, some 100⟩,
       ⟨"D3", "u", Status.completed, 1, some 100⟩,
       ⟨"D4", "u", Status.completed, 1, some 100⟩,
       ⟨"D5", "u", Status.pending, 0, none⟩,
       ⟨"D6", "u", Status.pending, 0, none⟩] := by
  refine ⟨?_, by rfl⟩
  intro now ai api fetchRaw q
  refine ⟨selectedIdx_length_le now q, ?_, ?_, fun i hi => mem_selectedIdx now q i hi, ?_⟩
  · simp [selectedIdx, List.length_take]
  · intro k
    simp [selectedIdx, List.get?_eq_getElem?, List.getElem?_take]
  · intro j hj
    by_cases hlen : q.length = 0
    · have hq : q = [] := List.length_eq_zero.mp hlen
      subst hq
      simp [processQueue]
    · unfold processQueue
      rw [Option.getD_some, if_neg hlen]
      exact processLoop_get?_not_mem _ _ _ _ _ _ _ hj

/-- Witness for C2 at a concrete input. -/
theorem processBatch_concurrency_bound_witness :
    (processQueue 0 (fun _ => AIResult.err) (fun _ => ClaudeResult.err)
        (fun _ => FetchResult.err)
        (some [⟨"A", "u", Status.completed, 0, none⟩])).1.get? 0 =
      [(⟨"A", "u", Status.completed, 0, none⟩ : QueueItem)].get? 0 :=
  (processBatch_concurrency_bound.1 0 _ _ _ _).2.2.2.2 0 (by decide)

/-- Claim C10: every position outside the selected slice is unchanged
(same entry, so status, attempts and lastAttempt are preserved), the
queue's length is preserved and every selected position still holds the
in-place-updated item built from the original at that position (no
removal, no reordering); if nothing is selected — in particular when the
stored queue is absent or empty — no `put` call is made at all. -/
theorem processBatch_frame :
    ∀ (now : Nat) (ai : String → AIResult) (api : String → ClaudeResult)
        (fetchRaw : String → FetchResult) (qd : Option (List QueueItem)),
      (processQueue now ai api fetchRaw qd).1.length = (qd.getD []).length ∧
      (∀ j, j ∉ selectedIdx now (qd.getD []) →
        (processQueue now ai api fetchRaw qd).1.get? j = (qd.getD []).get? j) ∧
      (∀ j ∈ selectedIdx now (qd.getD []), ∃ st,
        (processQueue now ai api fetchRaw qd).1.get? j =
          some { markProcessing now ((qd.getD []).getD j default) with status := st }) ∧
      (selectedIdx now (qd.getD []) = [] →
        (processQueue now ai api fetchRaw qd).2 = []) ∧
      (qd = none → (processQueue now ai api fetchRaw qd).2 = []) := by
  intro now ai api fetchRaw qd
  by_cases hlen : (qd.getD []).length = 0
  · have hq : qd.getD [] = [] := List.length_eq_zero.mp hlen
    have hpq : processQueue now ai api fetchRaw qd = ([], []) := by
      unfold processQueue
      rw [hq]
      rfl
    refine ⟨?_, ?_, ?_, ?_, ?_⟩ <;> simp [hpq, hq, selectedIdx, eligibleIdx]
  · have hpq : processQueue now ai api fetchRaw qd =
        processLoop now ai api fetchRaw (selectedIdx now (qd.getD [])) (qd.getD []) := by
      unfold processQueue
      rw [if_neg hlen]
    refine ⟨?_, ?_, ?_, ?_, ?_⟩
    · rw [hpq]
      exact processLoop_length _ _ _ _ _ _
    · intro j hj
      rw [hpq]
      exact processLoop_get?_not_mem _ _ _ _ _ _ _ hj
    · intro j hj
      refine ⟨(tryProcessItem ai api fetchRaw
        (markProcessing now ((qd.getD []).getD j default))).1, ?_⟩
      rw [hpq]
      exact processLoop_get?_mem now ai api fetchRaw _ _
        (selectedIdx_nodup _ _) (fun i hi => (mem_selectedIdx _ _ i hi).1) j hj
    · intro hsel
      rw [hpq, hsel]
      rfl
    · intro hnone
      subst hnone
      simp at hlen

/-- Witness for C10 at a concrete input. -/
theorem processBatch_frame_witness :
    (processQueue 3 (fun _ => AIResult.err) (fun _ => ClaudeResult.err)
        (fun _ => FetchResult.err)
        (some [⟨"A", "u", Status.pending, 0, none⟩,
               ⟨"B", "u", Status.completed, 2, some 1⟩])).1.get? 1 =
      [(⟨"A", "u", Status.pending, 0, none⟩ : QueueItem),
       ⟨"B", "u", Status.completed, 2, some 1⟩].get? 1 :=
  (processBatch_frame 3 _ _ _ _).2.1 1 (by decide)

/-- Claim C7: when the upstream listing fetch fails (network error or a
non-success response status), `updateCache` propagates the error and makes
no `put` call at all, leaving the stored state unchanged; on success the
snapshot is written as a complete replacement in a single `put` of the
whole `CachedData`, and the only other possible write is the queue
append. -/
theorem refresh_atomic :
    ∀ (now : Nat) (listing : ListingResult) (summary : Bool) (store : Store),
      ((listing = ListingResult.err ∨ ∃ rs, listing = ListingResult.resp false rs) →
        updateCache now listing summary store = Except.error () ∧
        applyStep store (Step.refresh now listing summary) = store) ∧
      (∀ orders, fetchExecutiveOrders listing = Except.ok orders →
        ∃ qputs, updateCache now listing summary store =
            Except.ok (Put.orders ⟨now, orders⟩ :: qputs) ∧
          (∀ p ∈ qputs, ∃ qq, p = Put.queue qq)) := by
  intro now listing summary store
  constructor
  · rintro (h | ⟨rs, h⟩) <;> subst h <;> exact ⟨rfl, rfl⟩
  · intro orders hfo
    unfold updateCache
    rw [hfo]
    by_cases hsum : summary = true
    · subst hsum
      by_cases hnew : 0 < (newQueueItemsFor orders (store.queue.getD [])).length
      · refine ⟨[Put.queue (enqueueNew orders (store.queue.getD []))], ?_, ?_⟩
        · simp [hnew]
        · simp
      · refine ⟨[], ?_, ?_⟩
        · simp [hnew]
        · simp
    · have hs : summary = false := by simpa using hsum
      subst hs
      exact ⟨[], by simp, by simp⟩

/-- Witness for C7 at a concrete input. -/
theorem refresh_atomic_witness :
    updateCache 5 ListingResult.err true ⟨none, none⟩ = Except.error () ∧
    applyStep ⟨none, none⟩ (Step.refresh 5 ListingResult.err true) = ⟨none, none⟩ :=
  (refresh_atomic 5 ListingResult.err true ⟨none, none⟩).1 (Or.inl rfl)

/-- Claim C1: starting from a queue with pairwise-distinct document
numbers, any sequence of `enqueueNew` calls — each on an order set with
pairwise-distinct document numbers, with arbitrary overlap between calls —
leaves the queue's document numbers pairwise distinct: an item is only
appended when its document number is not already present. -/
theorem enqueueNew_unique_docs :
    ∀ (q0 : List QueueItem) (batches : List (List ExecutiveOrder)),
      ((q0.map fun it => it.documentNumber)).Nodup →
      (∀ b ∈ batches, ((b.map fun o => o.document_number)).Nodup) →
      (((batches.foldl (fun acc b => enqueueNew b acc) q0).map
          fun it => it.documentNumber)).Nodup := by
  intro q0 batches
  induction batches generalizing q0 with
  | nil =>
      intro hq _
      simpa using hq
  | cons b rest ih =>
      intro hq hb
      simp only [List.foldl_cons]
      exact ih (enqueueNew b q0)
        (enqueueNew_nodup b q0 hq (hb b (List.mem_cons_self b rest)))
        (fun b2 hb2 => hb b2 (List.mem_cons_of_mem b hb2))

/-- Witness for C1 at a concrete input: the same one-order batch enqueued
twice creates no duplicate. -/
theorem enqueueNew_unique_docs_witness :
    ((([[(⟨"u", "p", "D1", "pd", "sd", "t", "14000", "P", "eo"⟩ : ExecutiveOrder)],
        [(⟨"u", "p", "D1", "pd", "sd", "t", "14000", "P", "eo"⟩ : ExecutiveOrder)]].foldl
          (fun acc b => enqueueNew b acc) ([] : List QueueItem)).map
        fun it => it.documentNumber)).Nodup :=
  enqueueNew_unique_docs [] _ (by decide) (by decide)

/-- Claim C5: once the queue holds, at position `i`, an item with
`status = failed` and `attempts ≥ MAX_RETRIES`, then after any sequence of
`processQueue` and `updateCache` triggers that exact item is still at
position `i` (never removed, never modified) and it is not in the eligible
set of any invocation at any clock value. -/
theorem stuck_item_permanent :
    ∀ (steps : List Step) (s : Store) (q : List QueueItem) (i : Nat)
        (item : QueueItem),
      s.queue = some q → q.get? i = some item →
      item.status = Status.failed → MAX_RETRIES ≤ item.attempts →
      ∃ q', (steps.foldl applyStep s).queue = some q' ∧
        q'.get? i = some item ∧
        ∀ now, isEligible now item = false := by
  intro steps
  induction steps with
  | nil =>
      intro s q i item hq hget hst hat
      exact ⟨q, hq, hget, fun now => stuck_not_eligible now item hst hat⟩
  | cons st rest ih =>
      intro s q i item hq hget hst hat
      rcases applyStep_preserves_stuck s st q i item hq hget hst hat with ⟨q1, hq1, hget1⟩
      simpa using ih (applyStep s st) q1 i item hq1 hget1 hst hat

/-- Witness for C5 at a concrete input: one processing trigger and one
refresh trigger leave the exhausted item in place and ineligible. -/
theorem stuck_item_permanent_witness :
    ∃ q', ((([Step.proc 7 (fun _ => AIResult.ok (some "S")) (fun _ => ClaudeResult.err)
              (fun _ => FetchResult.ok true "body"),
            Step.refresh 9 (ListingResult.resp true []) true].foldl applyStep
        ⟨none, some [⟨"A", "u", Status.failed, 3, some 1⟩]⟩).queue = some q') ∧
      q'.get? 0 = some ⟨"A", "u", Status.failed, 3, some 1⟩ ∧
      ∀ now, isEligible now ⟨"A", "u", Status.failed, 3, some 1⟩ = false) :=
  stuck_item_permanent _ _ [⟨"A", "u", Status.failed, 3, some 1⟩] 0
    ⟨"A", "u", Status.failed, 3, some 1⟩ rfl rfl rfl (by decide)
